import Mathlib

/-!
Shallow embedding of the ct-realestate-snowflake ingestion pipeline
(`ingest_data.py`, `test_connection.py`).

A dataframe is modelled as an ordered list of records; a record is an ordered
association list from column name to cell value.  A cell value is either the
pandas missing value NaN, the Python value None, a string, or a non-text
(numeric) value modelled as an integer.  Python's truthiness, `str()` and
`str.strip()` are embedded explicitly; stage side effects (SQL statements,
logging, resource release) are embedded as explicit event lists.
-/

namespace CTRealEstate

/-- One dataframe cell.  `nan` is the pandas missing value (`pd.notnull` is
false for it, but it is truthy in Python); `vNone` is Python's `None`;
`vStr` a text cell; `vInt` a non-text (numeric) cell, modelled as an
integer. -/
inductive Value where
  | nan : Value
  | vNone : Value
  | vStr : String → Value
  | vInt : Int → Value
  deriving DecidableEq

/-- A dataframe row: ordered (column name, cell) pairs. -/
abbrev Record : Type := List (String × Value)

/-- A dataframe: ordered rows, as delivered by the source. -/
abbrev Dataset : Type := List Record

/-- Python truthiness of a cell value: `None`, `""` and `0` are falsy;
NaN is truthy. -/
def pyTruthy : Value → Bool
  | .nan => true
  | .vNone => false
  | .vStr s => !(s == "")
  | .vInt n => !(n == 0)

/-- Python `str()` of a cell value (`str(float("nan")) = "nan"`,
`str(None) = "None"`; numbers are modelled as integers). -/
def pyStr : Value → String
  | .nan => "nan"
  | .vNone => "None"
  | .vStr s => s
  | .vInt n => toString n

/-- Python `x or y` on cell values: `x` when truthy, else `y`. -/
def pyOr (x y : Value) : Value := if pyTruthy x then x else y

/-- Python `s.strip()`: remove leading whitespace, then trailing whitespace
(drop from the reversed remainder and reverse back). -/
def pyStrip (s : String) : String :=
  ⟨((s.data.dropWhile Char.isWhitespace).reverse.dropWhile Char.isWhitespace).reverse⟩

/-- `df.where(pd.notnull(df), None)` cell-wise: NaN (and a null `None`)
becomes `None`; everything else is kept. -/
def notnullElseNone : Value → Value
  | .nan => .vNone
  | .vNone => .vNone
  | v => v

/-- `x.strip() if isinstance(x, str) else x`, applied cell-wise.  (In the
source it is applied per object-dtype column, but a non-object column holds
no strings, so the cell-wise map has the same effect.) -/
def stripIfStr : Value → Value
  | .vStr s => .vStr (pyStrip s)
  | v => v

/-- One cell through `clean_data`: first the NaN-to-None replacement, then
string stripping. -/
def cleanValue (v : Value) : Value := stripIfStr (notnullElseNone v)

/-- One row through `clean_data`: every cell is cleaned, columns unchanged. -/
def cleanRecord (r : Record) : Record := r.map fun p => (p.1, cleanValue p.2)

/-- `clean_data`: the whole dataframe, cell-wise. -/
def clean_data (df : Dataset) : Dataset := df.map cleanRecord

/-- `download_data`'s limit handling: `if limit: df = df.head(limit)`.
`limit` is `None` or an integer, and the test is Python truthiness, so a
limit of `0` leaves the dataframe untouched. -/
def download_data (rows : Dataset) (limit : Option Nat) : Dataset :=
  match limit with
  | Option.none => rows
  | Option.some n => if n == 0 then rows else rows.take n

/-- A string with no leading and no trailing whitespace. -/
def noEdgeWS (s : String) : Bool :=
  !(s.data.head?.any Char.isWhitespace) && !(s.data.getLast?.any Char.isWhitespace)

/-! ### Facts about `dropWhile` and `pyStrip` -/

lemma dropWhile_head?_not {α : Type} (p : α → Bool) (l : List α) :
    ∀ a, (l.dropWhile p).head? = some a → p a = false := by
  induction l with
  | nil => intro a h; simp [List.dropWhile] at h
  | cons x xs ih =>
    intro a h
    by_cases hx : p x
    · rw [List.dropWhile_cons_of_pos hx] at h
      exact ih a h
    · rw [List.dropWhile_cons_of_neg hx] at h
      simp at h
      subst h
      exact Bool.eq_false_iff.mpr hx

lemma dropWhile_eq_self_of_head? {α : Type} (p : α → Bool) (l : List α)
    (h : ∀ a, l.head? = some a → p a = false) : l.dropWhile p = l := by
  cases l with
  | nil => rfl
  | cons x xs =>
    have hx : p x = false := h x rfl
    simp [List.dropWhile_cons, hx]

lemma head?_append_of_ne_nil {α : Type} (l t : List α) (h : l ≠ []) :
    (l ++ t).head? = l.head? := by
  cases l with
  | nil => exact absurd rfl h
  | cons x xs => rfl

/-- The string returned by `pyStrip` splits the left-stripped list into the
result and a trailing stripped part. -/
lemma pyStrip_data (s : String) :
    (pyStrip s).data =
      ((s.data.dropWhile Char.isWhitespace).reverse.dropWhile Char.isWhitespace).reverse := rfl

lemma pyStrip_decomp (s : String) :
    s.data.dropWhile Char.isWhitespace =
      (pyStrip s).data ++ ((s.data.dropWhile Char.isWhitespace).reverse.takeWhile Char.isWhitespace).reverse := by
  rw [pyStrip_data]
  have h := List.takeWhile_append_dropWhile
    (p := Char.isWhitespace) (l := (s.data.dropWhile Char.isWhitespace).reverse)
  calc s.data.dropWhile Char.isWhitespace
      = (s.data.dropWhile Char.isWhitespace).reverse.reverse := (List.reverse_reverse _).symm
    _ = ((s.data.dropWhile Char.isWhitespace).reverse.takeWhile Char.isWhitespace ++
          (s.data.dropWhile Char.isWhitespace).reverse.dropWhile Char.isWhitespace).reverse := by
          rw [h]
    _ = _ := by
          rw [List.reverse_append]

lemma pyStrip_head?_not (s : String) :
    ∀ a, (pyStrip s).data.head? = some a → a.isWhitespace = false := by
  intro a ha
  have hne : (pyStrip s).data ≠ [] := by
    intro h0
    rw [h0] at ha
    simp at ha
  have : (s.data.dropWhile Char.isWhitespace).head? = some a := by
    rw [pyStrip_decomp s, head?_append_of_ne_nil _ _ hne]
    exact ha
  exact dropWhile_head?_not Char.isWhitespace s.data a this

lemma pyStrip_getLast?_not (s : String) :
    ∀ a, (pyStrip s).data.getLast? = some a → a.isWhitespace = false := by
  intro a ha
  have hrev : (pyStrip s).data.reverse.head? = some a := by
    rw [List.head?_reverse]
    exact ha
  rw [pyStrip_data, List.reverse_reverse] at hrev
  exact dropWhile_head?_not Char.isWhitespace
    (s.data.dropWhile Char.isWhitespace).reverse a hrev

lemma noEdgeWS_pyStrip (s : String) : noEdgeWS (pyStrip s) = true := by
  unfold noEdgeWS
  cases hh : (pyStrip s).data.head? with
  | none =>
    have hnil : (pyStrip s).data = [] := by
      cases hd : (pyStrip s).data with
      | nil => rfl
      | cons x xs => rw [hd] at hh; simp at hh
    rw [hnil]
    simp [Option.any]
  | some a =>
    have ha := pyStrip_head?_not s a hh
    cases hl : (pyStrip s).data.getLast? with
    | none => simp [Option.any, ha]
    | some c =>
      have hc := pyStrip_getLast?_not s c hl
      simp [Option.any, ha, hc]

lemma pyStrip_idempotent (s : String) : pyStrip (pyStrip s) = pyStrip s := by
  have hfix : (pyStrip s).data.dropWhile Char.isWhitespace = (pyStrip s).data :=
    dropWhile_eq_self_of_head? Char.isWhitespace (pyStrip s).data (pyStrip_head?_not s)
  apply String.ext
  rw [pyStrip_data (pyStrip s), hfix, pyStrip_data s, List.reverse_reverse,
    List.dropWhile_idempotent]

lemma cleanValue_idempotent (v : Value) : cleanValue (cleanValue v) = cleanValue v := by
  cases v with
  | nan => rfl
  | vNone => rfl
  | vStr s =>
    show Value.vStr (pyStrip (pyStrip s)) = Value.vStr (pyStrip s)
    rw [pyStrip_idempotent]
  | vInt n => rfl

lemma cleanRecord_idempotent (r : Record) : cleanRecord (cleanRecord r) = cleanRecord r := by
  unfold cleanRecord
  rw [List.map_map]
  apply List.map_congr_left
  intro p _
  simp [Function.comp, cleanValue_idempotent]

/-! ### The load stage -/

/-- The source dataframe column names, in the order `load_to_bronze` reads
them into the insert tuple. -/
def sourceColumns : List String :=
  ["Serial Number", "List Year", "Date Recorded", "Town", "Address",
   "Assessed Value", "Sale Amount", "Sales Ratio", "Property Type",
   "Residential Type", "Non Use Code", "Assessor Remarks", "OPM remarks",
   "Location"]

/-- The destination columns of the INSERT statement, in its stated order. -/
def insertColumns : List String :=
  ["serial_number", "list_year", "date_recorded", "town", "address",
   "assessed_value", "sale_amount", "sales_ratio", "property_type",
   "residential_type", "non_use_code", "assessor_remarks", "opm_remarks",
   "location"]

/-- `row.get(col, '')`: the cell under `col`, or `''` when the column is
absent from the row. -/
def rowGet (r : Record) (k : String) : Value :=
  match List.lookup k r with
  | Option.some v => v
  | Option.none => .vStr ""

/-- One tuple entry: `str(row.get(col, '') or '')`. -/
def loadCell (r : Record) (k : String) : String :=
  pyStr (pyOr (rowGet r k) (.vStr ""))

/-- The `value_tuple` built for one row, over the fourteen source columns. -/
def value_tuple (r : Record) : List String := sourceColumns.map (loadCell r)

/-- A statement the load stage sends to the warehouse: the TRUNCATE, one
multi-row insert (`executemany`) per batch, and the final commit. -/
inductive DbEvent where
  | truncate : DbEvent
  | insertMany : List (List String) → DbEvent
  | commit : DbEvent
  deriving DecidableEq

/-- How many batches `range(0, total, b)` yields for `b > 0`: the ceiling of
`total / b`. -/
def numBatches (total b : Nat) : Nat := (total + b - 1) / b

/-- The batches of `load_to_bronze`: for each start index `i * b`, the slice
`df.iloc[start : min(start + b, total)]`. -/
def load_batches (df : Dataset) (b : Nat) : List Dataset :=
  (List.range (numBatches df.length b)).map fun i => (df.drop (i * b)).take b

/-- `load_to_bronze`: truncate the destination, then per batch build the
value tuples and issue one `executemany`, accumulating `inserted_count`,
then one commit.  Returns the emitted statements and the final count. -/
def load_to_bronze (df : Dataset) (b : Nat) : List DbEvent × Nat :=
  let afterLoop :=
    (load_batches df b).foldl
      (fun acc batch =>
        let values := batch.map value_tuple
        (acc.1 ++ [DbEvent.insertMany values], acc.2 + values.length))
      ([DbEvent.truncate], 0)
  (afterLoop.1 ++ [DbEvent.commit], afterLoop.2)

/-- The destination table contents after one statement. -/
def applyEvent (tbl : List (List String)) : DbEvent → List (List String)
  | .truncate => []
  | .insertMany rows => tbl ++ rows
  | .commit => tbl

/-- The destination table contents after a statement sequence. -/
def applyEvents (tbl : List (List String)) (es : List DbEvent) : List (List String) :=
  es.foldl applyEvent tbl

/-! ### Facts about the batching -/

lemma numBatches_zero (b : Nat) : numBatches 0 b = 0 := by
  unfold numBatches
  cases b with
  | zero => rfl
  | succ m =>
    apply Nat.div_eq_of_lt
    omega

lemma numBatches_succ_sub (n b : Nat) (hb : 0 < b) (hn : 0 < n) :
    numBatches n b = numBatches (n - b) b + 1 := by
  unfold numBatches
  by_cases h : n ≤ b
  · have h1 : n - b = 0 := by omega
    rw [h1]
    have h2 : (0 + b - 1) / b = 0 := Nat.div_eq_of_lt (by omega)
    have h3 : (n + b - 1) / b = 1 := by
      apply Nat.div_eq_of_lt_le
      · omega
      · omega
    omega
  · have h1 : n + b - 1 = (n - b + b - 1) + b := by omega
    rw [h1, Nat.add_div_right _ hb]

lemma load_batches_nil (b : Nat) : load_batches [] b = [] := by
  unfold load_batches
  rw [List.length_nil, numBatches_zero, List.range_zero, List.map_nil]

lemma load_batches_step (df : Dataset) (b : Nat) (hb : 0 < b) (hdf : df ≠ []) :
    load_batches df b = df.take b :: load_batches (df.drop b) b := by
  unfold load_batches
  have hn : 0 < df.length := List.length_pos.mpr hdf
  rw [List.length_drop, numBatches_succ_sub df.length b hb hn,
    List.range_succ_eq_map, List.map_cons, List.map_map]
  congr 1
  · rw [Nat.zero_mul, List.drop_zero]
  · apply List.map_congr_left
    intro i _
    show (df.drop (i.succ * b)).take b = ((df.drop b).drop (i * b)).take b
    rw [List.drop_drop, Nat.succ_mul, Nat.add_comm]

lemma load_batches_flatten (b : Nat) (hb : 0 < b) (df : Dataset) :
    (load_batches df b).flatten = df := by
  by_cases hdf : df = []
  · subst hdf
    rw [load_batches_nil]
    rfl
  · rw [load_batches_step df b hb hdf, List.flatten_cons,
      load_batches_flatten b hb (df.drop b), List.take_append_drop]
termination_by df.length
decreasing_by
  simp only [List.length_drop]
  have : 0 < df.length := List.length_pos.mpr hdf
  omega

lemma load_batches_length (df : Dataset) (b : Nat) :
    (load_batches df b).length = numBatches df.length b := by
  unfold load_batches
  rw [List.length_map, List.length_range]

lemma load_batches_get (df : Dataset) (b : Nat) (i : Nat)
    (h : i < (load_batches df b).length) :
    (load_batches df b).get ⟨i, h⟩ = (df.drop (i * b)).take b := by
  unfold load_batches at h ⊢
  simp only [List.get_eq_getElem, List.getElem_map, List.getElem_range]

lemma load_batches_mem_length_le (df : Dataset) (b : Nat) :
    ∀ batch ∈ load_batches df b, batch.length ≤ b := by
  intro batch hmem
  unfold load_batches at hmem
  rw [List.mem_map] at hmem
  obtain ⟨i, _, rfl⟩ := hmem
  exact List.length_take_le b _

lemma load_batches_full (df : Dataset) (b : Nat) (i : Nat) (hb : 0 < b)
    (h : i + 1 < (load_batches df b).length) :
    ((load_batches df b).get ⟨i, Nat.lt_of_succ_lt h⟩).length = b := by
  rw [load_batches_get, List.length_take, List.length_drop]
  rw [load_batches_length] at h
  unfold numBatches at h
  have hdiv : (i + 2) * b ≤ df.length + b - 1 :=
    (Nat.le_div_iff_mul_le hb).mp (by omega)
  have hexp : (i + 2) * b = i * b + 2 * b := by ring
  have h2 : b ≤ df.length - i * b := by omega
  omega

lemma inserted_count_eq (df : Dataset) (b : Nat) (hb : 0 < b) :
    ((load_batches df b).map List.length).sum = df.length := by
  rw [← List.length_flatten, load_batches_flatten b hb]

/-- The loop of `load_to_bronze`, unrolled: the events accumulate one
`executemany` per batch and the count accumulates each batch's size. -/
lemma load_fold (bs : List Dataset) : ∀ (es : List DbEvent) (c : Nat),
    bs.foldl
      (fun acc batch =>
        (acc.1 ++ [DbEvent.insertMany (batch.map value_tuple)],
         acc.2 + (batch.map value_tuple).length))
      (es, c)
    = (es ++ bs.map fun batch => DbEvent.insertMany (batch.map value_tuple),
       c + (bs.map List.length).sum) := by
  induction bs with
  | nil => intro es c; simp
  | cons x xs ih =>
    intro es c
    simp only [List.foldl_cons, List.map_cons, List.sum_cons]
    rw [ih]
    simp [List.length_map]
    omega

lemma load_to_bronze_eq (df : Dataset) (b : Nat) :
    load_to_bronze df b =
      (DbEvent.truncate ::
        ((load_batches df b).map fun batch => DbEvent.insertMany (batch.map value_tuple))
        ++ [DbEvent.commit],
       ((load_batches df b).map List.length).sum) := by
  simp only [load_to_bronze]
  rw [load_fold]
  simp

/-! ### Facts about Python `str()` -/

lemma toDigitsCore_length_le (b : Nat) : ∀ (f n : Nat) (acc : List Char),
    acc.length ≤ (Nat.toDigitsCore b f n acc).length := by
  intro f
  induction f with
  | zero => intro n acc; exact le_refl _
  | succ f ih =>
    intro n acc
    by_cases h : n / b = 0
    · simp [Nat.toDigitsCore, h]
    · simp only [Nat.toDigitsCore, h, if_false]
      calc acc.length ≤ (Nat.digitChar (n % b) :: acc).length := by simp
        _ ≤ _ := ih (n / b) (Nat.digitChar (n % b) :: acc)

lemma toDigits_ne_nil (n : Nat) : Nat.toDigits 10 n ≠ [] := by
  unfold Nat.toDigits
  by_cases h : n / 10 = 0
  · simp [Nat.toDigitsCore, h]
  · simp only [Nat.toDigitsCore, h, if_false]
    intro hnil
    have hlen := toDigitsCore_length_le 10 n (n / 10) [Nat.digitChar (n % 10)]
    rw [hnil] at hlen
    simp at hlen

lemma nat_repr_ne_empty (n : Nat) : Nat.repr n ≠ "" := by
  unfold Nat.repr
  intro h
  have hdata : (Nat.toDigits 10 n) = [] := by
    have h2 := congrArg String.data h
    simpa [List.asString] using h2
  exact toDigits_ne_nil n hdata

lemma int_toString_ne_empty (n : Int) : toString n ≠ "" := by
  cases n with
  | ofNat m =>
    show Nat.repr m ≠ ""
    exact nat_repr_ne_empty m
  | negSucc m =>
    show "-" ++ Nat.repr (m + 1) ≠ ""
    intro h
    have h2 := congrArg String.length h
    rw [String.length_append] at h2
    have h3 : ("-" : String).length = 1 := rfl
    have h4 : ("" : String).length = 0 := rfl
    omega

lemma pyStr_ne_empty_of_truthy (v : Value) (h : pyTruthy v = true) : pyStr v ≠ "" := by
  cases v with
  | nan => intro h2; exact absurd h2 (by decide)
  | vNone => simp [pyTruthy] at h
  | vStr s =>
    simp only [pyTruthy, Bool.not_eq_true', beq_eq_false_iff_ne, ne_eq] at h
    simpa [pyStr] using h
  | vInt n => exact int_toString_ne_empty n

/-! ### The pipeline orchestrator -/

/-- An error raised by a stage (the warehouse or the network). -/
abbrev PyErr : Type := String

/-- The externally visible actions of `run_pipeline`'s `except`/`finally`
blocks. -/
inductive Action where
  | logFailureBanner : Action
  | closeCursor : Action
  | closeConn : Action
  deriving DecidableEq

/-- What one invocation of `run_pipeline` leaves behind: the actions of its
`except`/`finally` blocks, in order, and its result (`ok` or the re-raised
error). -/
structure RunOutcome where
  actions : List Action
  result : Except PyErr Dataset

/-- The `try` block of `run_pipeline`: download, clean, load (its statements
are answered by the warehouse, which may fail), verify.  The download, the
warehouse and the verification queries are external effects and enter as
parameters; each stage runs only if every earlier stage succeeded. -/
def pipeline_body (downloadRes : Except PyErr Dataset)
    (warehouse : List DbEvent → Except PyErr Unit)
    (verifyRes : Except PyErr Unit) : Except PyErr Dataset := do
  let df0 ← downloadRes
  let df := clean_data df0
  let _ ← warehouse (load_to_bronze df 5000).1
  let _ ← verifyRes
  pure df

/-- `run_pipeline`: the `try` block, an `except` block that logs the failure
banner and re-raises, and a `finally` block that closes the cursor and the
connection on every exit path. -/
def run_pipeline (downloadRes : Except PyErr Dataset)
    (warehouse : List DbEvent → Except PyErr Unit)
    (verifyRes : Except PyErr Unit) : RunOutcome :=
  match pipeline_body downloadRes warehouse verifyRes with
  | .ok df => ⟨[Action.closeCursor, Action.closeConn], .ok df⟩
  | .error e =>
      ⟨[Action.logFailureBanner, Action.closeCursor, Action.closeConn], .error e⟩

/-! ### The connectivity check -/

/-- The required configuration names of `test_connection.py`. -/
def required_vars : List String :=
  ["SNOWFLAKE_ACCOUNT", "SNOWFLAKE_USER", "SNOWFLAKE_PASSWORD",
   "SNOWFLAKE_WAREHOUSE", "SNOWFLAKE_DATABASE"]

/-- `not os.getenv(v)`: an unset variable (`None`) and an empty string are
both falsy. -/
def envFalsy (o : Option String) : Bool :=
  match o with
  | Option.none => true
  | Option.some s => s == ""

/-- `missing = [v for v in required_vars if not os.getenv(v)]`. -/
def missing (env : String → Option String) : List String :=
  required_vars.filter fun v => envFalsy (env v)

/-- How the connectivity check ends its configuration phase: abort listing
the missing names (`exit(1)`), or go on to open a connection. -/
inductive CheckResult where
  | abortMissing : List String → CheckResult
  | attemptConnect : CheckResult
  deriving DecidableEq

/-- `if missing: … exit(1)` else connect. -/
def connectivity_check (env : String → Option String) : CheckResult :=
  if (missing env).isEmpty then CheckResult.attemptConnect
  else CheckResult.abortMissing (missing env)

/-! ### The claims -/

/-- C1: for every Dataset and every batch size `b > 0`, the load stage's
partition into consecutive index slices of at most `b` records, concatenated
in order, reconstructs the Dataset exactly, and every batch except possibly
the last has exactly `b` records. -/
theorem c1_batch_partition_reconstructs (df : Dataset) (b : Nat) (hb : 0 < b) :
    (load_batches df b).flatten = df ∧
    (∀ batch ∈ load_batches df b, batch.length ≤ b) ∧
    (∀ i, ∀ h : i + 1 < (load_batches df b).length,
      ((load_batches df b).get ⟨i, Nat.lt_of_succ_lt h⟩).length = b) :=
  ⟨load_batches_flatten b hb df, load_batches_mem_length_le df b,
   fun i h => load_batches_full df b i hb h⟩

/-- Witness for C1: a three-record dataset split into batches of two. -/
theorem c1_batch_partition_witness :
    (load_batches [[("Town", Value.vStr "a")], [("Town", Value.vStr "b")],
        [("Town", Value.vStr "c")]] 2).flatten =
      [[("Town", Value.vStr "a")], [("Town", Value.vStr "b")],
       [("Town", Value.vStr "c")]] ∧
    (∀ batch ∈ load_batches [[("Town", Value.vStr "a")], [("Town", Value.vStr "b")],
        [("Town", Value.vStr "c")]] 2, batch.length ≤ 2) ∧
    (∀ i, ∀ h : i + 1 < (load_batches [[("Town", Value.vStr "a")],
        [("Town", Value.vStr "b")], [("Town", Value.vStr "c")]] 2).length,
      ((load_batches [[("Town", Value.vStr "a")], [("Town", Value.vStr "b")],
        [("Town", Value.vStr "c")]] 2).get ⟨i, Nat.lt_of_succ_lt h⟩).length = 2) :=
  c1_batch_partition_reconstructs
    [[("Town", Value.vStr "a")], [("Town", Value.vStr "b")],
     [("Town", Value.vStr "c")]] 2 (by decide)

/-- C2: the clean stage never drops, adds, or reorders records: the cleaned
dataframe has the same length and its i-th record is the cleaned i-th input
record. -/
theorem c2_clean_preserves_length_and_order (df : Dataset) :
    (clean_data df).length = df.length ∧
    List.Forall₂ (fun r r' => r' = cleanRecord r) df (clean_data df) := by
  constructor
  · simp [clean_data]
  · induction df with
    | nil => exact List.Forall₂.nil
    | cons r rs ih => exact List.Forall₂.cons rfl ih

/-- C3 counterexample: a whitespace-only cell is stripped to the empty
string, not to the absent marker `None`, so after cleaning an empty field
value need not be `None`. -/
theorem c3_empty_string_counterexample :
    clean_data [[("Town", Value.vStr " ")]] = [[("Town", Value.vStr "")]] ∧
    ¬ (∀ df : Dataset, ∀ r ∈ clean_data df, ∀ p ∈ r, p.2 ≠ Value.vStr "") := by
  constructor
  · decide
  · intro hcl
    exact hcl [[("Town", Value.vStr " ")]] [("Town", Value.vStr "")] (by decide)
      ("Town", Value.vStr "") (by decide) rfl

/-- C3 amended: cleaning turns every missing value (NaN, and `None` itself)
into the absent marker `None`, strips every string of leading and trailing
whitespace, and leaves non-text values unchanged; but a value that is or
becomes the empty string stays the empty string — it is not converted to
`None`.  After the stage, no cell is NaN and every text cell has no edge
whitespace. -/
theorem c3_clean_normalization_amended :
    (cleanValue Value.nan = Value.vNone ∧ cleanValue Value.vNone = Value.vNone) ∧
    (∀ s, cleanValue (Value.vStr s) = Value.vStr (pyStrip s) ∧
      noEdgeWS (pyStrip s) = true) ∧
    (∀ n : Int, cleanValue (Value.vInt n) = Value.vInt n) ∧
    (∀ df : Dataset, ∀ r ∈ clean_data df, ∀ p ∈ r,
      p.2 ≠ Value.nan ∧ ∀ s, p.2 = Value.vStr s → noEdgeWS s = true) := by
  refine ⟨⟨rfl, rfl⟩, fun s => ⟨rfl, noEdgeWS_pyStrip s⟩, fun n => rfl, ?_⟩
  intro df r hr p hp
  rw [clean_data, List.mem_map] at hr
  obtain ⟨r0, _, rfl⟩ := hr
  rw [cleanRecord, List.mem_map] at hp
  obtain ⟨p0, _, rfl⟩ := hp
  constructor
  · cases p0.2 <;> simp [cleanValue, notnullElseNone, stripIfStr]
  · intro s hs
    cases hv : p0.2 with
    | nan => rw [hv] at hs; cases hs
    | vNone => rw [hv] at hs; cases hs
    | vStr t =>
      rw [hv] at hs
      have : pyStrip t = s := by
        have h2 : Value.vStr (pyStrip t) = Value.vStr s := hs
        cases h2
        rfl
      rw [← this]
      exact noEdgeWS_pyStrip t
    | vInt m => rw [hv] at hs; cases hs

/-- C8: the clean stage is idempotent — cleaning a cleaned dataframe changes
nothing, since stripping is idempotent and missing-value normalization fixes
`None`. -/
theorem c8_clean_idempotent (df : Dataset) :
    clean_data (clean_data df) = clean_data df := by
  unfold clean_data
  rw [List.map_map]
  apply List.map_congr_left
  intro r _
  exact cleanRecord_idempotent r

/-- C4 counterexample: a field that is present and not missing, with the
numeric value `0`, is rendered as the empty string in the insert tuple
(`str(row.get(col, '') or '')` collapses every Python-falsy value), not as
its text representation `"0"`. -/
theorem c4_zero_value_counterexample :
    (value_tuple [("Serial Number", Value.vInt 0)]).head? = some "" ∧
    rowGet [("Serial Number", Value.vInt 0)] "Serial Number" = Value.vInt 0 ∧
    Value.vInt 0 ≠ Value.vNone ∧
    pyStr (Value.vInt 0) = "0" ∧
    ("0" : String) ≠ "" := by decide

/-- C4 amended: the tuple entry is the empty string exactly when the field's
looked-up value is Python-falsy (absent, `None`, the empty string, or zero);
for a truthy value it is the `str` of that value.  Each batch is sent as one
multi-row insert over the fixed 14-column schema, and the emitted statements
are the truncate, one insert per batch in order, and the commit. -/
theorem c4_load_tuple_amended (df : Dataset) (b : Nat) :
    (load_to_bronze df b).1 =
      DbEvent.truncate ::
        ((load_batches df b).map fun batch => DbEvent.insertMany (batch.map value_tuple))
        ++ [DbEvent.commit] ∧
    insertColumns.length = 14 ∧
    (∀ r : Record, (value_tuple r).length = 14) ∧
    (∀ r : Record, ∀ k : String,
      (loadCell r k = "" ↔ pyTruthy (rowGet r k) = false) ∧
      (pyTruthy (rowGet r k) = true → loadCell r k = pyStr (rowGet r k))) := by
  refine ⟨?_, rfl, fun r => ?_, fun r k => ⟨?_, ?_⟩⟩
  · rw [load_to_bronze_eq]
  · simp [value_tuple, sourceColumns]
  · by_cases h : pyTruthy (rowGet r k) = true
    · simp only [loadCell, pyOr, if_pos h]
      constructor
      · intro he
        exact absurd he (pyStr_ne_empty_of_truthy _ h)
      · intro hf
        rw [hf] at h
        cases h
    · have hf : pyTruthy (rowGet r k) = false := Bool.eq_false_iff.mpr h
      simp only [loadCell, pyOr, if_neg h]
      simp [pyStr, hf]
  · intro h
    simp only [loadCell, pyOr, if_pos h]

/-- C5 counterexample: with one available record and a requested limit of 0,
`download_data` returns the whole dataframe (Python's `if limit:` is false
for 0), not `min(0, 1) = 0` records. -/
theorem c5_zero_limit_counterexample :
    (download_data [[("Town", Value.vStr "x")]] (Option.some 0)).length = 1 ∧
    min 0 ([[("Town", Value.vStr "x")]] : Dataset).length = 0 ∧
    (1 : Nat) ≠ 0 := by decide

/-- C5 amended: for every positive limit `n`, `download_data` returns
exactly the first `min(n, available)` records in source order; a limit of 0
is treated like no limit at all, returning every record, as does `None`. -/
theorem c5_download_limit_amended (rows : Dataset) (n : Nat) (h : 0 < n) :
    download_data rows (Option.some n) = rows.take n ∧
    (download_data rows (Option.some n)).length = min n rows.length ∧
    download_data rows (Option.some 0) = rows ∧
    download_data rows Option.none = rows := by
  have hn : (n == 0) = false := by
    simp only [beq_eq_false_iff_ne, ne_eq]
    omega
  refine ⟨?_, ?_, rfl, rfl⟩
  · simp [download_data, hn]
  · simp [download_data, hn, List.length_take]

/-- Witness for C5's amended claim at a two-record dataset and limit 1. -/
theorem c5_download_limit_witness :
    download_data [[("Town", Value.vStr "x")], [("Town", Value.vStr "y")]]
        (Option.some 1) =
      ([[("Town", Value.vStr "x")], [("Town", Value.vStr "y")]] : Dataset).take 1 ∧
    (download_data [[("Town", Value.vStr "x")], [("Town", Value.vStr "y")]]
        (Option.some 1)).length =
      min 1 ([[("Town", Value.vStr "x")], [("Town", Value.vStr "y")]] : Dataset).length ∧
    download_data [[("Town", Value.vStr "x")], [("Town", Value.vStr "y")]]
        (Option.some 0) =
      [[("Town", Value.vStr "x")], [("Town", Value.vStr "y")]] ∧
    download_data [[("Town", Value.vStr "x")], [("Town", Value.vStr "y")]]
        Option.none =
      [[("Town", Value.vStr "x")], [("Town", Value.vStr "y")]] :=
  c5_download_limit_amended _ 1 (by decide)

/-- On a failed download the pipeline body short-circuits with that error. -/
lemma pipeline_body_download_error (e : PyErr)
    (warehouse : List DbEvent → Except PyErr Unit) (verifyRes : Except PyErr Unit) :
    pipeline_body (Except.error e) warehouse verifyRes = Except.error e := rfl

/-- C6: on every exit path of `run_pipeline` — success or any stage's
failure — the cursor and the connection are closed before control returns;
the result is exactly the try-block's result (an error is re-raised, never
swallowed); the failure banner is logged exactly when a stage failed; and a
failed download aborts the run with that error before any later stage
matters. -/
theorem c6_resources_released (downloadRes : Except PyErr Dataset)
    (warehouse : List DbEvent → Except PyErr Unit) (verifyRes : Except PyErr Unit) :
    Action.closeCursor ∈ (run_pipeline downloadRes warehouse verifyRes).actions ∧
    Action.closeConn ∈ (run_pipeline downloadRes warehouse verifyRes).actions ∧
    (run_pipeline downloadRes warehouse verifyRes).result =
      pipeline_body downloadRes warehouse verifyRes ∧
    (Action.logFailureBanner ∈ (run_pipeline downloadRes warehouse verifyRes).actions ↔
      ∃ e, pipeline_body downloadRes warehouse verifyRes = Except.error e) ∧
    (∀ e, downloadRes = Except.error e →
      (run_pipeline downloadRes warehouse verifyRes).result = Except.error e) := by
  cases hbody : pipeline_body downloadRes warehouse verifyRes with
  | ok df =>
    refine ⟨by simp [run_pipeline, hbody], by simp [run_pipeline, hbody],
      by simp [run_pipeline, hbody], by simp [run_pipeline, hbody], ?_⟩
    intro e he
    subst he
    rw [pipeline_body_download_error] at hbody
    cases hbody
  | error e =>
    refine ⟨by simp [run_pipeline, hbody], by simp [run_pipeline, hbody],
      by simp [run_pipeline, hbody], by simp [run_pipeline, hbody], ?_⟩
    intro e2 he
    subst he
    rw [pipeline_body_download_error] at hbody
    cases hbody
    simp [run_pipeline, pipeline_body_download_error]

/-- C7: whenever a required configuration name is unset, the connectivity
check aborts before any connection attempt, listing the missing names; the
missing list holds exactly the required names whose value is falsy; and when
only `SNOWFLAKE_PASSWORD` is missing, exactly that one name is reported. -/
theorem c7_missing_config_reported (env : String → Option String) :
    ((∃ v ∈ required_vars, env v = Option.none) →
      connectivity_check env = CheckResult.abortMissing (missing env) ∧
      connectivity_check env ≠ CheckResult.attemptConnect) ∧
    (∀ v, v ∈ missing env ↔ v ∈ required_vars ∧ envFalsy (env v) = true) ∧
    ((∀ v ∈ required_vars, v ≠ "SNOWFLAKE_PASSWORD" → envFalsy (env v) = false) →
      env "SNOWFLAKE_PASSWORD" = Option.none →
      connectivity_check env = CheckResult.abortMissing ["SNOWFLAKE_PASSWORD"]) := by
  refine ⟨?_, fun v => List.mem_filter, ?_⟩
  · rintro ⟨v, hv, hnone⟩
    have hfalsy : envFalsy (env v) = true := by rw [hnone]; rfl
    have hmem : v ∈ missing env := List.mem_filter.mpr ⟨hv, hfalsy⟩
    have hne : (missing env).isEmpty = false := by
      cases hmm : missing env with
      | nil => rw [hmm] at hmem; cases hmem
      | cons x xs => rfl
    constructor
    · simp [connectivity_check, hne]
    · simp [connectivity_check, hne]
  · intro hothers hpw
    have h1 : envFalsy (env "SNOWFLAKE_ACCOUNT") = false :=
      hothers "SNOWFLAKE_ACCOUNT" (by decide) (by decide)
    have h2 : envFalsy (env "SNOWFLAKE_USER") = false :=
      hothers "SNOWFLAKE_USER" (by decide) (by decide)
    have h3 : envFalsy (env "SNOWFLAKE_PASSWORD") = true := by rw [hpw]; rfl
    have h4 : envFalsy (env "SNOWFLAKE_WAREHOUSE") = false :=
      hothers "SNOWFLAKE_WAREHOUSE" (by decide) (by decide)
    have h5 : envFalsy (env "SNOWFLAKE_DATABASE") = false :=
      hothers "SNOWFLAKE_DATABASE" (by decide) (by decide)
    have hmiss : missing env = ["SNOWFLAKE_PASSWORD"] := by
      simp [missing, required_vars, List.filter, h1, h2, h3, h4, h5]
    simp [connectivity_check, hmiss]

/-- C9: loading the empty Dataset still truncates the destination, issues no
insert, still commits, reports an inserted count of 0, and leaves the table
empty whatever it held before. -/
theorem c9_empty_dataset_load (b : Nat) (_hb : 0 < b) :
    load_to_bronze ([] : Dataset) b = ([DbEvent.truncate, DbEvent.commit], 0) ∧
    (∀ tbl : List (List String),
      applyEvents tbl (load_to_bronze ([] : Dataset) b).1 = []) := by
  have h : load_to_bronze ([] : Dataset) b = ([DbEvent.truncate, DbEvent.commit], 0) := by
    simp only [load_to_bronze, load_batches_nil, List.foldl_nil]
    rfl
  refine ⟨h, fun tbl => ?_⟩
  rw [h]
  rfl

/-- Witness for C9 at the default batch size 5000. -/
theorem c9_empty_dataset_witness :
    load_to_bronze ([] : Dataset) 5000 = ([DbEvent.truncate, DbEvent.commit], 0) ∧
    (∀ tbl : List (List String),
      applyEvents tbl (load_to_bronze ([] : Dataset) 5000).1 = []) :=
  c9_empty_dataset_load 5000 (by decide)

/-- C10: a required configuration value set to the empty string is classified
exactly like an unset one — it is listed as missing, the missing list is
unchanged if the variable is unset instead, and no connection is
attempted. -/
theorem c10_empty_equals_unset (env : String → Option String) (v : String)
    (hv : v ∈ required_vars) (h : env v = Option.some "") :
    v ∈ missing env ∧
    missing env = missing (fun w => if w = v then Option.none else env w) ∧
    connectivity_check env ≠ CheckResult.attemptConnect := by
  have hfalsy : envFalsy (env v) = true := by rw [h]; rfl
  have hmem : v ∈ missing env := List.mem_filter.mpr ⟨hv, hfalsy⟩
  refine ⟨hmem, ?_, ?_⟩
  · unfold missing
    apply List.filter_congr
    intro w hw
    by_cases hwv : w = v
    · subst hwv
      simp [h, envFalsy]
    · simp [hwv]
  · have hne : (missing env).isEmpty = false := by
      cases hmm : missing env with
      | nil => rw [hmm] at hmem; cases hmem
      | cons x xs => rfl
    simp [connectivity_check, hne]

/-- Witness for C10: an environment where `SNOWFLAKE_PASSWORD` is the empty
string and everything else is set. -/
theorem c10_empty_equals_unset_witness :
    "SNOWFLAKE_PASSWORD" ∈ missing
      (fun w => if w = "SNOWFLAKE_PASSWORD" then Option.some "" else Option.some "x") ∧
    missing (fun w => if w = "SNOWFLAKE_PASSWORD" then Option.some "" else Option.some "x") =
      missing (fun w => if w = "SNOWFLAKE_PASSWORD" then Option.none
        else if w = "SNOWFLAKE_PASSWORD" then Option.some "" else Option.some "x") ∧
    connectivity_check
      (fun w => if w = "SNOWFLAKE_PASSWORD" then Option.some "" else Option.some "x") ≠
      CheckResult.attemptConnect :=
  c10_empty_equals_unset _ "SNOWFLAKE_PASSWORD" (by decide) (by decide)

end CTRealEstate
